import Mathlib

/-!
Verification development for the `json_timeline` task of the
openrelik-worker-hayabusa repository (src/src/json_timeline.py).

The task is embedded shallowly:

* the filesystem is a pair of a directory list and a file table mapping a
  path to an inode number and a size (a hard link is a second path entry
  carrying the same inode);
* the external nondeterminism of one invocation (the random uuid used for
  the staging directory name, whether `subprocess.Popen` succeeds, how many
  times `poll()` returns `None`, the exit code, and whether/what the
  external tool writes at the output path) is an `Env` oracle record;
* the observable side effects of a run (mkdir, link, spawn, event emission,
  sleeping, rmtree) are collected in a trace of `Action`s;
* Python exceptions are an `Except TaskError` result.

Collaborator functions imported from `openrelik_worker_common.utils`
(`get_input_files`, `create_output_file`, `task_result`) are not part of
this repository; they are modelled from the spec, as marked in their doc
comments.  Everything else is translated directly from
src/src/json_timeline.py.
-/

set_option autoImplicit false

namespace Hayabusa

/-- An input file reference as handed to the task; only its `path` field is
read by `json_timeline` (`file.get("path")`). -/
structure InputFile where
  path : String
deriving DecidableEq, Repr

/-- Serialized descriptor of an output file (`output_file.to_dict()`). -/
structure FileDict where
  path : String
  data_type : String
deriving DecidableEq, Repr

/-- The output file record allocated by the factory before invocation. -/
structure OutputFile where
  path : String
  filename : String
  file_extension : String
  data_type : String
deriving DecidableEq, Repr

/-- Modelled from the spec: `create_output_file` (from
`openrelik_worker_common.utils`, not part of this repository) allocates one
output artifact with a fixed filename and format tag under the output path
root, before the external tool is invoked. -/
def create_output_file (output_path filename file_extension data_type : String) :
    OutputFile :=
  ⟨output_path ++ "/" ++ filename ++ "." ++ file_extension,
   filename, file_extension, data_type⟩

/-- Serialize an output file record to its descriptor dictionary. -/
def OutputFile.to_dict (f : OutputFile) : FileDict :=
  ⟨f.path, f.data_type⟩

/-- Modelled from the spec: `get_input_files` (from
`openrelik_worker_common.utils`, not part of this repository) accepts either
a result handed from an upstream pipeline stage or a list of input file
references and normalizes to a single ordered list. -/
def get_input_files (pipe_result : Option (List InputFile))
    (input_files : List InputFile) : List InputFile :=
  match pipe_result with
  | some files => files
  | none => input_files

/-- The structured payload returned to the caller. -/
structure TaskResult where
  output_files : List FileDict
  workflow_id : Option String
  command : String
deriving DecidableEq, Repr

/-- Modelled from the spec: `task_result` (from
`openrelik_worker_common.utils`, not part of this repository) packages the
output artifact descriptors, the workflow correlation identifier and the
exact command line into the final payload. -/
def task_result (output_files : List FileDict) (workflow_id : Option String)
    (command : String) : TaskResult :=
  ⟨output_files, workflow_id, command⟩

/-- Python's `" ".join(command)`. -/
def spaceJoin : List String → String
  | [] => ""
  | [s] => s
  | s :: rest => s ++ " " ++ spaceJoin rest

/-- Python's `os.path.basename`: the substring after the last `/`. -/
def basename (p : String) : String :=
  ⟨p.data.foldl (fun acc c => if c = '/' then [] else acc ++ [c]) []⟩

/-- Boolean test that `s` starts with the string `pre`. -/
def strStarts (s pre : String) : Bool :=
  List.isPrefixOf pre.data s.data

/-- File-table lookup: the first entry for path `p`, as (inode, size). -/
def findFile : List (String × Nat × Nat) → String → Option (Nat × Nat)
  | [], _ => none
  | e :: es, p => if e.1 = p then some e.2 else findFile es p

/-- The filesystem model: a list of existing directories and a file table.
Each file entry is (path, inode, size); hard-linked paths share an inode. -/
structure FS where
  dirs : List String
  files : List (String × Nat × Nat)
deriving DecidableEq, Repr

/-- Lookup of a path in the file table. -/
def FS.lookupFile (fs : FS) (p : String) : Option (Nat × Nat) :=
  findFile fs.files p

/-- Whether a regular file exists at path `p`. -/
def FS.isFile (fs : FS) (p : String) : Bool :=
  (fs.lookupFile p).isSome

/-- Python's `os.path.exists`: a directory or a file is present at `p`. -/
def FS.pathExists (fs : FS) (p : String) : Bool :=
  fs.dirs.contains p || fs.isFile p

/-- The inode a file path resolves to, if any. -/
def FS.inodeOf (fs : FS) (p : String) : Option Nat :=
  (fs.lookupFile p).map (fun e => e.1)

/-- The size of the file at path `p`, if any. -/
def FS.sizeOf (fs : FS) (p : String) : Option Nat :=
  (fs.lookupFile p).map (fun e => e.2)

/-- Python's `os.mkdir`: fails if something already exists at the path,
otherwise records the new directory. -/
def FS.mkdir (fs : FS) (p : String) : Option FS :=
  if fs.pathExists p then none else some ⟨p :: fs.dirs, fs.files⟩

/-- Python's `os.link src dst`: fails if `src` is not an existing file or if
something already exists at `dst`; otherwise adds a second path entry for
the same inode (a hard link, not a copy). -/
def FS.link (fs : FS) (src dst : String) : Option FS :=
  match fs.lookupFile src with
  | none => none
  | some e => if fs.pathExists dst then none else some ⟨fs.dirs, (dst, e.1, e.2) :: fs.files⟩

/-- Python's `shutil.rmtree`: removes the directory `d` and everything
below it. -/
def FS.rmtree (fs : FS) (d : String) : FS :=
  ⟨fs.dirs.filter (fun x => !(x == d || strStarts x (d ++ "/"))),
   fs.files.filter (fun e => !(strStarts e.1 (d ++ "/")))⟩

/-- The file paths currently present inside directory `d`. -/
def FS.entriesUnder (fs : FS) (d : String) : List String :=
  (fs.files.filter (fun e => strStarts e.1 (d ++ "/"))).map (fun e => e.1)

/-- Observable side effects of one invocation. -/
inductive Action where
  | mkdir (path : String)
  | link (src dst : String)
  | spawn (command : List String)
  | sendEvent (name : String) (payload : Option String)
  | sleep (seconds : Nat)
  | rmtree (path : String)
deriving DecidableEq, Repr

/-- Python exceptions that can escape `json_timeline`, named after the
spec's error taxonomy: `stagingError` stands for the `OSError` raised by
`os.mkdir`/`os.link`, `spawnError` for an exception raised by
`subprocess.Popen`, and `missingOutputError` for the
`RuntimeError("Hayabusa didn't create any output files")` raise. -/
inductive TaskError where
  | stagingError
  | spawnError
  | missingOutputError
deriving DecidableEq, Repr

/-- Oracle for the external nondeterminism of one invocation. -/
structure Env where
  uuidHex : String
  spawnOk : Bool
  pollsWhileAlive : Nat
  exitCode : Int
  outputProduced : Bool
  outputInode : Nat
  outputSize : Nat
deriving DecidableEq, Repr

/-- Effect of the external tool on the filesystem: if the oracle says the
tool produced output, a file appears at the output path; otherwise the
filesystem is untouched. -/
def Env.processEffect (env : Env) (outPath : String) (fs : FS) : FS :=
  if env.outputProduced then
    ⟨fs.dirs, (outPath, env.outputInode, env.outputSize) ::
      fs.files.filter (fun e => !(e.1 == outPath))⟩
  else fs

/-- Lines 63-65: hard link each input file into the staging directory under
its base filename; an `OSError` from `os.link` aborts the loop.  Returns
(success flag, filesystem after the links made so far, link actions). -/
def stageFiles (temp_dir : String) : List InputFile → FS → Bool × FS × List Action
  | [], fs => (true, fs, [])
  | f :: rest, fs =>
    let dst := temp_dir ++ "/" ++ basename f.path
    match fs.link f.path dst with
    | none => (false, fs, [])
    | some fs1 =>
      let r := stageFiles temp_dir rest fs1
      (r.1, r.2.1, Action.link f.path dst :: r.2.2)

/-- Lines 68-82: the fixed Hayabusa command line. -/
def build_command (output_file_path temp_dir : String) : List String :=
  ["/hayabusa/hayabusa",
   "json-timeline",
   "--ISO-8601",
   "--UTC",
   "--no-wizard",
   "--quiet",
   "--JSONL-output",
   "--profile",
   "super-verbose",
   "--output",
   output_file_path,
   "--directory",
   temp_dir]

/-- Lines 85-89: while `process.poll()` is `None` (the oracle says this
happens `n` times), emit a `task-progress` event with no payload, then
sleep `INTERVAL_SECONDS = 2`. -/
def pollLoop : Nat → List Action
  | 0 => []
  | n + 1 => Action.sendEvent "task-progress" none :: Action.sleep 2 :: pollLoop n

/-- Result, final filesystem and action trace of one invocation. -/
structure RunOutcome where
  result : Except TaskError TaskResult
  fs : FS
  trace : List Action
deriving Repr

/-- Lines 67-107 of `json_timeline`, entered once staging has completed:
build the command, spawn the tool (which may itself raise), poll while it
is alive, remove the staging directory if it exists, append the output
descriptor and build the task result.  `tr2` is the trace accumulated by
the staging steps. -/
def runAfterStaging (env : Env) (output_file : OutputFile) (temp_dir : String)
    (workflow_id : Option String) (output_files : List FileDict)
    (fs2 : FS) (tr2 : List Action) : RunOutcome :=
  let command := build_command output_file.path temp_dir
  if env.spawnOk then
    let fs3 := env.processEffect output_file.path fs2
    let fs4 := if fs3.pathExists temp_dir then fs3.rmtree temp_dir else fs3
    let trC := if fs3.pathExists temp_dir then [Action.rmtree temp_dir] else []
    let output_files1 := output_files ++ [output_file.to_dict]
    let trace := tr2 ++ Action.spawn command :: (pollLoop env.pollsWhileAlive ++ trC)
    if output_files1.isEmpty then
      ⟨.error .missingOutputError, fs4, trace⟩
    else
      ⟨.ok (task_result output_files1 workflow_id (spaceJoin command)), fs4, trace⟩
  else
    ⟨.error .spawnError, fs2, tr2⟩

/-- Shallow embedding of `json_timeline` (lines 40-107).  The body mirrors
the Python statement by statement; an uncaught exception is an early return
with the filesystem and trace as they stood when it was raised (there is no
`try`/`finally` in the source). -/
def json_timeline (env : Env) (fs0 : FS) (pipe_result : Option (List InputFile))
    (input_files : List InputFile) (output_path : String)
    (workflow_id : Option String) (task_config : List (String × String)) :
    RunOutcome :=
  let inputs := get_input_files pipe_result input_files
  let output_files : List FileDict := []
  let output_file := create_output_file output_path "Hayabusa_JSONL_timeline"
    "jsonl" "openrelik:worker:hayabusa:file:jsonl"
  let temp_dir := output_path ++ "/" ++ env.uuidHex
  match fs0.mkdir temp_dir with
  | none => ⟨.error .stagingError, fs0, []⟩
  | some fs1 =>
    let staged := stageFiles temp_dir inputs fs1
    if staged.1 then
      runAfterStaging env output_file temp_dir workflow_id output_files
        staged.2.1 (Action.mkdir temp_dir :: staged.2.2)
    else
      ⟨.error .stagingError, staged.2.1, Action.mkdir temp_dir :: staged.2.2⟩

/-- Boolean test for a success result. -/
def isOkResult : Except TaskError TaskResult → Bool
  | .ok _ => true
  | .error _ => false

/-- Boolean test for the missing-output failure. -/
def isMissingOutput : Except TaskError TaskResult → Bool
  | .error .missingOutputError => true
  | _ => false

/-- The staging directory path of one invocation: `os.path.join(output_path,
uuid4().hex)` with the uuid supplied by the oracle. -/
abbrev tempDirOf (env : Env) (output_path : String) : String :=
  output_path ++ "/" ++ env.uuidHex

/-- The output file allocated by `json_timeline` for a given output path. -/
abbrev outputFileOf (output_path : String) : OutputFile :=
  create_output_file output_path "Hayabusa_JSONL_timeline" "jsonl"
    "openrelik:worker:hayabusa:file:jsonl"

/-- A small sample filesystem used for concrete witnesses. -/
def sampleFS : FS :=
  ⟨["/out"], [("/in/a.evtx", 1, 10), ("/other/a.evtx", 2, 20), ("/in/b.evtx", 3, 30)]⟩

/-- Oracle for a run in which everything works and the tool writes output. -/
def envRun : Env := ⟨"u1", true, 2, 0, true, 9, 5⟩

/-- Oracle for a run in which the tool exits without producing output. -/
def envNoOutput : Env := ⟨"u1", true, 2, 0, false, 9, 5⟩

/-- Oracle for a run in which `subprocess.Popen` raises. -/
def envNoSpawn : Env := ⟨"u1", false, 0, 0, false, 9, 5⟩

/-! Helper lemmas about strings and the filesystem model. -/

theorem strStarts_append (pre b : String) : strStarts (pre ++ b) pre = true := by
  simp only [strStarts, String.data_append, List.isPrefixOf_iff_prefix]
  exact List.prefix_append pre.data b.data

theorem ne_of_not_strStarts {s pre : String} (h : strStarts s pre = false)
    (b : String) : s ≠ pre ++ b := by
  intro he
  rw [he, strStarts_append] at h
  cases h

theorem string_append_cancel {pre a b : String} (h : pre ++ a = pre ++ b) :
    a = b := by
  apply String.ext
  have hd : pre.data ++ a.data = pre.data ++ b.data := by
    rw [← String.data_append, ← String.data_append, h]
  exact List.append_cancel_left hd

theorem strStarts_dst (td b : String) :
    strStarts (td ++ "/" ++ b) (td ++ "/") = true :=
  strStarts_append (td ++ "/") b

theorem dst_inj {td a b : String} (h : td ++ "/" ++ a = td ++ "/" ++ b) :
    a = b :=
  string_append_cancel h

theorem findFile_cons_ne {e : String × Nat × Nat} {es : List (String × Nat × Nat)}
    {p : String} (h : e.1 ≠ p) : findFile (e :: es) p = findFile es p := by
  simp [findFile, h]

theorem findFile_cons_self {e : String × Nat × Nat}
    {es : List (String × Nat × Nat)} : findFile (e :: es) e.1 = some e.2 := by
  simp [findFile]

theorem FS.mkdir_some {fs fs' : FS} {p : String} (h : fs.mkdir p = some fs') :
    fs' = ⟨p :: fs.dirs, fs.files⟩ := by
  unfold FS.mkdir at h
  split at h
  · exact Option.noConfusion h
  · exact (Option.some.injEq _ _ ▸ h).symm

theorem FS.link_some {fs fs' : FS} {src dst : String}
    (h : fs.link src dst = some fs') :
    ∃ e, fs.lookupFile src = some e ∧ fs.pathExists dst = false
      ∧ fs' = ⟨fs.dirs, (dst, e.1, e.2) :: fs.files⟩ := by
  unfold FS.link at h
  split at h
  · exact Option.noConfusion h
  next e he =>
    split at h
    · exact Option.noConfusion h
    next hp =>
      exact ⟨e, he, by simpa using hp, (Option.some.injEq _ _ ▸ h).symm⟩

theorem FS.link_dirs {fs fs' : FS} {src dst : String}
    (h : fs.link src dst = some fs') : fs'.dirs = fs.dirs := by
  obtain ⟨e, -, -, rfl⟩ := FS.link_some h
  rfl

theorem stageFiles_dirs (td : String) (l : List InputFile) (fs : FS) :
    ((stageFiles td l fs).2.1).dirs = fs.dirs := by
  induction l generalizing fs with
  | nil => rfl
  | cons f rest ih =>
    simp only [stageFiles]
    cases hl : fs.link f.path (td ++ "/" ++ basename f.path) with
    | none => rfl
    | some fs1 => simpa [FS.link_dirs hl] using ih fs1

theorem Env.processEffect_dirs (env : Env) (outPath : String) (fs : FS) :
    (env.processEffect outPath fs).dirs = fs.dirs := by
  unfold Env.processEffect
  split <;> rfl

theorem FS.not_mem_rmtree_dirs (fs : FS) (d : String) :
    d ∉ (fs.rmtree d).dirs := by
  intro hm
  have h := (List.mem_filter.mp hm).2
  simp at h

theorem FS.rmtree_entriesUnder (fs : FS) (d : String) :
    (fs.rmtree d).entriesUnder d = [] := by
  simp [FS.rmtree, FS.entriesUnder, List.filter_filter]

theorem pollLoop_eq_replicate (n : Nat) :
    pollLoop n = (List.replicate n
      [Action.sendEvent "task-progress" none, Action.sleep 2]).flatten := by
  induction n with
  | zero => rfl
  | succ k ih => simp [pollLoop, List.replicate, ih]

theorem stageFiles_trace_links (td : String) (l : List InputFile) (fs : FS) :
    ∀ a ∈ (stageFiles td l fs).2.2, ∃ s d, a = Action.link s d := by
  induction l generalizing fs with
  | nil => intro a ha; cases ha
  | cons f rest ih =>
    intro a ha
    simp only [stageFiles] at ha
    cases hl : fs.link f.path (td ++ "/" ++ basename f.path) with
    | none => rw [hl] at ha; cases ha
    | some fs1 =>
      rw [hl] at ha
      rcases List.mem_cons.mp ha with rfl | hmem
      · exact ⟨f.path, td ++ "/" ++ basename f.path, rfl⟩
      · exact ih fs1 a hmem

theorem stageFiles_sound (td : String) (l : List InputFile) (fs : FS)
    (hsrc : ∀ f ∈ l, fs.isFile f.path = true)
    (hout : ∀ f ∈ l, strStarts f.path (td ++ "/") = false)
    (hnew : ∀ f ∈ l, fs.pathExists (td ++ "/" ++ basename f.path) = false)
    (hnodup : (l.map (fun f => basename f.path)).Nodup) :
    (stageFiles td l fs).1 = true
    ∧ (∀ p, (∀ f ∈ l, p ≠ td ++ "/" ++ basename f.path) →
        ((stageFiles td l fs).2.1).lookupFile p = fs.lookupFile p)
    ∧ (∀ f ∈ l, ((stageFiles td l fs).2.1).inodeOf (td ++ "/" ++ basename f.path)
        = fs.inodeOf f.path)
    ∧ ((stageFiles td l fs).2.1).entriesUnder td
        = (l.map (fun f => td ++ "/" ++ basename f.path)).reverse
          ++ fs.entriesUnder td := by
  induction l generalizing fs with
  | nil =>
    exact ⟨rfl, fun p _ => rfl, fun f hf => absurd hf (List.not_mem_nil f),
      by simp [stageFiles]⟩
  | cons f rest ih =>
    have hsf : fs.isFile f.path = true := hsrc f (List.mem_cons_self f rest)
    obtain ⟨e, he⟩ : ∃ e, fs.lookupFile f.path = some e := by
      cases hl : fs.lookupFile f.path with
      | none => rw [FS.isFile, hl] at hsf; cases hsf
      | some e => exact ⟨e, rfl⟩
    have hnef : fs.pathExists (td ++ "/" ++ basename f.path) = false :=
      hnew f (List.mem_cons_self f rest)
    have hlink : fs.link f.path (td ++ "/" ++ basename f.path)
        = some ⟨fs.dirs, (td ++ "/" ++ basename f.path, e.1, e.2) :: fs.files⟩ := by
      unfold FS.link
      rw [he]
      simp [hnef]
    have hbase : basename f.path ∉ rest.map (fun g => basename g.path) :=
      (List.nodup_cons.mp hnodup).1
    have hdstne : ∀ g ∈ rest,
        td ++ "/" ++ basename f.path ≠ td ++ "/" ++ basename g.path := by
      intro g hg hcontra
      exact hbase (dst_inj hcontra ▸ List.mem_map_of_mem _ hg)
    have hsrcne : ∀ g ∈ rest, g.path ≠ td ++ "/" ++ basename f.path := by
      intro g hg
      exact ne_of_not_strStarts (hout g (List.mem_cons_of_mem f hg)) _
    have hsrc1 : ∀ g ∈ rest,
        (FS.mk fs.dirs ((td ++ "/" ++ basename f.path, e.1, e.2) :: fs.files)).isFile
          g.path = true := by
      intro g hg
      have := hsrc g (List.mem_cons_of_mem f hg)
      rw [FS.isFile, FS.lookupFile] at this ⊢
      rwa [findFile_cons_ne (Ne.symm (hsrcne g hg))]
    have hout1 : ∀ g ∈ rest, strStarts g.path (td ++ "/") = false :=
      fun g hg => hout g (List.mem_cons_of_mem f hg)
    have hnew1 : ∀ g ∈ rest,
        (FS.mk fs.dirs ((td ++ "/" ++ basename f.path, e.1, e.2) :: fs.files)).pathExists
          (td ++ "/" ++ basename g.path) = false := by
      intro g hg
      have hgfs := hnew g (List.mem_cons_of_mem f hg)
      rw [FS.pathExists, Bool.or_eq_false_iff] at hgfs ⊢
      refine ⟨hgfs.1, ?_⟩
      rw [FS.isFile, FS.lookupFile] at hgfs ⊢
      rw [findFile_cons_ne (hdstne g hg)]
      exact hgfs.2
    obtain ⟨hok, hpres, hino, hent⟩ :=
      ih (FS.mk fs.dirs ((td ++ "/" ++ basename f.path, e.1, e.2) :: fs.files))
        hsrc1 hout1 hnew1 (List.nodup_cons.mp hnodup).2
    simp only [stageFiles, hlink]
    refine ⟨hok, ?_, ?_, ?_⟩
    · intro p hp
      rw [hpres p (fun g hg => hp g (List.mem_cons_of_mem f hg))]
      rw [FS.lookupFile, FS.lookupFile]
      exact findFile_cons_ne (Ne.symm (hp f (List.mem_cons_self f rest)))
    · intro g hg
      rcases List.mem_cons.mp hg with rfl | hmem
      · rw [FS.inodeOf, hpres _ (hdstne · ·), FS.lookupFile, findFile_cons_self,
          FS.inodeOf, he]
      · rw [hino g hmem, FS.inodeOf, FS.inodeOf, FS.lookupFile, FS.lookupFile,
          findFile_cons_ne (Ne.symm (hsrcne g hmem))]
    · rw [hent]
      have hfs1 : (FS.mk fs.dirs
          ((td ++ "/" ++ basename f.path, e.1, e.2) :: fs.files)).entriesUnder td
          = (td ++ "/" ++ basename f.path) :: fs.entriesUnder td := by
        simp [FS.entriesUnder, strStarts_dst]
      rw [hfs1]
      simp [List.reverse_cons, List.append_assoc]

/-! Reduction lemmas: the four control-flow branches of `json_timeline`. -/

theorem json_timeline_mkdir_none (env : Env) (fs0 : FS)
    (pr : Option (List InputFile)) (inf : List InputFile) (op : String)
    (wf : Option String) (tc : List (String × String))
    (hm : fs0.mkdir (tempDirOf env op) = none) :
    json_timeline env fs0 pr inf op wf tc = ⟨.error .stagingError, fs0, []⟩ := by
  simp only [json_timeline, tempDirOf] at *
  rw [hm]

theorem json_timeline_stage_fail (env : Env) (fs0 fs1 : FS)
    (pr : Option (List InputFile)) (inf : List InputFile) (op : String)
    (wf : Option String) (tc : List (String × String))
    (hm : fs0.mkdir (tempDirOf env op) = some fs1)
    (hs : (stageFiles (tempDirOf env op) (get_input_files pr inf) fs1).1 = false) :
    json_timeline env fs0 pr inf op wf tc =
      ⟨.error .stagingError,
       (stageFiles (tempDirOf env op) (get_input_files pr inf) fs1).2.1,
       Action.mkdir (tempDirOf env op) ::
         (stageFiles (tempDirOf env op) (get_input_files pr inf) fs1).2.2⟩ := by
  simp only [json_timeline, tempDirOf] at *
  rw [hm]
  simp [hs]

theorem json_timeline_stage_ok (env : Env) (fs0 fs1 : FS)
    (pr : Option (List InputFile)) (inf : List InputFile) (op : String)
    (wf : Option String) (tc : List (String × String))
    (hm : fs0.mkdir (tempDirOf env op) = some fs1)
    (hs : (stageFiles (tempDirOf env op) (get_input_files pr inf) fs1).1 = true) :
    json_timeline env fs0 pr inf op wf tc =
      runAfterStaging env (outputFileOf op) (tempDirOf env op) wf []
        ((stageFiles (tempDirOf env op) (get_input_files pr inf) fs1).2.1)
        (Action.mkdir (tempDirOf env op) ::
          (stageFiles (tempDirOf env op) (get_input_files pr inf) fs1).2.2) := by
  simp only [json_timeline, tempDirOf, outputFileOf] at *
  rw [hm]
  simp [hs]

theorem runAfterStaging_spawn_fail (env : Env) (output_file : OutputFile)
    (temp_dir : String) (wf : Option String) (fs2 : FS) (tr2 : List Action)
    (hspawn : env.spawnOk = false) :
    runAfterStaging env output_file temp_dir wf [] fs2 tr2 =
      ⟨.error .spawnError, fs2, tr2⟩ := by
  simp [runAfterStaging, hspawn]

theorem runAfterStaging_spawn_ok (env : Env) (output_file : OutputFile)
    (temp_dir : String) (wf : Option String) (fs2 : FS) (tr2 : List Action)
    (hspawn : env.spawnOk = true) :
    runAfterStaging env output_file temp_dir wf [] fs2 tr2 =
      ⟨.ok (task_result [output_file.to_dict] wf
          (spaceJoin (build_command output_file.path temp_dir))),
       (if (env.processEffect output_file.path fs2).pathExists temp_dir then
          (env.processEffect output_file.path fs2).rmtree temp_dir
        else env.processEffect output_file.path fs2),
       tr2 ++ Action.spawn (build_command output_file.path temp_dir) ::
         (pollLoop env.pollsWhileAlive ++
          (if (env.processEffect output_file.path fs2).pathExists temp_dir then
             [Action.rmtree temp_dir]
           else []))⟩ := by
  simp [runAfterStaging, hspawn]

theorem pathExists_tempDir_after_process (env : Env) (op : String) (fs0 fs1 : FS)
    (pr : Option (List InputFile)) (inf : List InputFile)
    (hm : fs0.mkdir (tempDirOf env op) = some fs1) :
    ((env.processEffect (outputFileOf op).path
        ((stageFiles (tempDirOf env op) (get_input_files pr inf) fs1).2.1)).pathExists
      (tempDirOf env op)) = true := by
  have h1 : fs1.dirs = tempDirOf env op :: fs0.dirs := by
    rw [FS.mkdir_some hm]
  rw [FS.pathExists, Env.processEffect_dirs, stageFiles_dirs, h1]
  simp [List.contains_cons]

/-! The claims. -/

/-- C1: the spec demands that when the external process exits and the file at
the output artifact path is absent (or empty), the invocation fails with
`MissingOutputError` and never returns a success result.  The code does
otherwise: it appends the pre-allocated descriptor unconditionally and
returns a success `TaskResult` even though no file exists at the output
path.  This theorem evaluates the embedding at such a failing input: the
tool produced nothing (`envNoOutput`), the final filesystem has no file at
the output artifact path, yet the run returns a success result. -/
theorem c1_no_output_still_success :
    isOkResult (json_timeline envNoOutput sampleFS none [⟨"/in/a.evtx"⟩] "/out"
      (some "wf") []).result = true
    ∧ (json_timeline envNoOutput sampleFS none [⟨"/in/a.evtx"⟩] "/out"
      (some "wf") []).fs.isFile "/out/Hayabusa_JSONL_timeline.jsonl" = false := by
  exact ⟨rfl, rfl⟩

/-- C2 counterexample: the claim asserts the staging directory is gone after
every terminated invocation that got past staging, "including a failed
subprocess launch".  On a failed `subprocess.Popen` (oracle `envNoSpawn`)
the exception propagates before the cleanup statement, so the invocation
terminates (with `spawnError`, i.e. past staging) while the staging
directory `/out/u1` still exists. -/
theorem c2_counterexample :
    (json_timeline envNoSpawn sampleFS none [⟨"/in/a.evtx"⟩] "/out"
      (some "wf") []).result = .error .spawnError
    ∧ ((json_timeline envNoSpawn sampleFS none [⟨"/in/a.evtx"⟩] "/out"
      (some "wf") []).fs.dirs.contains (tempDirOf envNoSpawn "/out")) = true := by
  exact ⟨rfl, rfl⟩

/-- C2 (amended): for every invocation that gets past successful staging and
in which the subprocess launch succeeds (so the polling loop completes),
the staging directory no longer exists at termination: it is not among the
final filesystem's directories and no file entries remain under it.  On a
failed subprocess launch the error propagates before cleanup and the
staging directory leaks (see the counterexample). -/
theorem c2_cleanup_after_wait (env : Env) (fs0 fs1 : FS)
    (pr : Option (List InputFile)) (inf : List InputFile) (op : String)
    (wf : Option String) (tc : List (String × String))
    (hspawn : env.spawnOk = true)
    (hm : fs0.mkdir (tempDirOf env op) = some fs1)
    (hstage : (stageFiles (tempDirOf env op) (get_input_files pr inf) fs1).1 = true) :
    tempDirOf env op ∉ (json_timeline env fs0 pr inf op wf tc).fs.dirs
    ∧ (json_timeline env fs0 pr inf op wf tc).fs.entriesUnder (tempDirOf env op)
        = [] := by
  have hex := pathExists_tempDir_after_process env op fs0 fs1 pr inf hm
  rw [json_timeline_stage_ok env fs0 fs1 pr inf op wf tc hm hstage,
      runAfterStaging_spawn_ok _ _ _ _ _ _ hspawn]
  simp only [hex, if_true]
  exact ⟨FS.not_mem_rmtree_dirs _ _, FS.rmtree_entriesUnder _ _⟩

/-- Witness for C2 (amended) at a concrete input. -/
theorem c2_cleanup_after_wait_witness :
    envRun.spawnOk = true
    ∧ sampleFS.mkdir (tempDirOf envRun "/out")
        = some ⟨["/out/u1", "/out"], sampleFS.files⟩
    ∧ (stageFiles (tempDirOf envRun "/out") (get_input_files none [⟨"/in/a.evtx"⟩])
        ⟨["/out/u1", "/out"], sampleFS.files⟩).1 = true
    ∧ (tempDirOf envRun "/out"
        ∉ (json_timeline envRun sampleFS none [⟨"/in/a.evtx"⟩] "/out"
            (some "wf") []).fs.dirs
      ∧ (json_timeline envRun sampleFS none [⟨"/in/a.evtx"⟩] "/out"
          (some "wf") []).fs.entriesUnder (tempDirOf envRun "/out") = []) :=
  ⟨rfl, by decide, by decide,
   c2_cleanup_after_wait envRun sampleFS ⟨["/out/u1", "/out"], sampleFS.files⟩
     none [⟨"/in/a.evtx"⟩] "/out" (some "wf") [] rfl (by decide) (by decide)⟩

/-- C4: given the same output artifact path and staging directory path the
constructed command line is a fixed function of those two strings and
equals exactly this token sequence, in this order. -/
theorem c4_command_fixed (output_file_path temp_dir : String) :
    build_command output_file_path temp_dir =
      ["/hayabusa/hayabusa", "json-timeline", "--ISO-8601", "--UTC",
       "--no-wizard", "--quiet", "--JSONL-output", "--profile", "super-verbose",
       "--output", output_file_path, "--directory", temp_dir] := rfl

/-- C6: the outcome of `json_timeline` is independent of the subprocess's
exit status: two runs identical in every respect except the exit code
produce the same outcome (result, filesystem and trace), because the exit
status is never inspected after polling ends. -/
theorem c6_exit_status_independent (u : String) (s : Bool) (p : Nat)
    (e1 e2 : Int) (oprod : Bool) (oi osz : Nat) (fs0 : FS)
    (pr : Option (List InputFile)) (infl : List InputFile) (op : String)
    (wf : Option String) (tc : List (String × String)) :
    json_timeline ⟨u, s, p, e1, oprod, oi, osz⟩ fs0 pr infl op wf tc
      = json_timeline ⟨u, s, p, e2, oprod, oi, osz⟩ fs0 pr infl op wf tc := rfl

/-- C10: every run that reaches the post-subprocess check has exactly one
element in `output_files` (the descriptor is appended unconditionally), so
the `RuntimeError("Hayabusa didn't create any output files")` branch is
unreachable: no invocation whatsoever produces the missing-output error. -/
theorem c10_missing_output_unreachable (env : Env) (fs0 : FS)
    (pr : Option (List InputFile)) (inf : List InputFile) (op : String)
    (wf : Option String) (tc : List (String × String)) :
    isMissingOutput (json_timeline env fs0 pr inf op wf tc).result = false := by
  cases hm : fs0.mkdir (tempDirOf env op) with
  | none => rw [json_timeline_mkdir_none env fs0 pr inf op wf tc hm]; rfl
  | some fs1 =>
    cases hs : (stageFiles (tempDirOf env op) (get_input_files pr inf) fs1).1 with
    | false => rw [json_timeline_stage_fail env fs0 fs1 pr inf op wf tc hm hs]; rfl
    | true =>
      rw [json_timeline_stage_ok env fs0 fs1 pr inf op wf tc hm hs]
      cases hsp : env.spawnOk with
      | false => rw [runAfterStaging_spawn_fail _ _ _ _ _ _ hsp]; rfl
      | true => rw [runAfterStaging_spawn_ok _ _ _ _ _ _ hsp]; rfl

/-- C3: for a non-empty list of input files with pairwise-distinct base
filenames (whose source paths exist, lie outside the staging directory, and
whose staging destinations are fresh), staging succeeds and afterwards the
staging directory contains exactly one entry per input file, named by the
input's base filename, and each entry is a hard link resolving to the same
inode as the corresponding source path (same content, not a copy). -/
theorem c3_staging_completeness (td : String) (inputs : List InputFile) (fs : FS)
    (hne : inputs ≠ [])
    (hnodup : (inputs.map (fun f => basename f.path)).Nodup)
    (hsrc : ∀ f ∈ inputs, fs.isFile f.path = true)
    (hout : ∀ f ∈ inputs, strStarts f.path (td ++ "/") = false)
    (hnew : ∀ f ∈ inputs, fs.pathExists (td ++ "/" ++ basename f.path) = false)
    (hclean : fs.entriesUnder td = []) :
    (stageFiles td inputs fs).1 = true
    ∧ ((stageFiles td inputs fs).2.1).entriesUnder td
        = (inputs.map (fun f => td ++ "/" ++ basename f.path)).reverse
    ∧ (((stageFiles td inputs fs).2.1).entriesUnder td).length = inputs.length
    ∧ ∀ f ∈ inputs,
        ((stageFiles td inputs fs).2.1).inodeOf (td ++ "/" ++ basename f.path)
          = fs.inodeOf f.path := by
  obtain ⟨hok, -, hino, hent⟩ := stageFiles_sound td inputs fs hsrc hout hnew hnodup
  rw [hclean, List.append_nil] at hent
  refine ⟨hok, hent, ?_, hino⟩
  rw [hent, List.length_reverse, List.length_map]

/-- Witness for C3 at a concrete input: two inputs with distinct basenames
staged into `/out/u1`. -/
theorem c3_staging_completeness_witness :
    ([⟨"/in/a.evtx"⟩, ⟨"/in/b.evtx"⟩] : List InputFile) ≠ []
    ∧ (([⟨"/in/a.evtx"⟩, ⟨"/in/b.evtx"⟩] : List InputFile).map
        (fun f => basename f.path)).Nodup
    ∧ (∀ f ∈ ([⟨"/in/a.evtx"⟩, ⟨"/in/b.evtx"⟩] : List InputFile),
        sampleFS.isFile f.path = true)
    ∧ (∀ f ∈ ([⟨"/in/a.evtx"⟩, ⟨"/in/b.evtx"⟩] : List InputFile),
        strStarts f.path ("/out/u1" ++ "/") = false)
    ∧ (∀ f ∈ ([⟨"/in/a.evtx"⟩, ⟨"/in/b.evtx"⟩] : List InputFile),
        sampleFS.pathExists ("/out/u1" ++ "/" ++ basename f.path) = false)
    ∧ sampleFS.entriesUnder "/out/u1" = []
    ∧ ((stageFiles "/out/u1" [⟨"/in/a.evtx"⟩, ⟨"/in/b.evtx"⟩] sampleFS).1 = true
      ∧ ((stageFiles "/out/u1" [⟨"/in/a.evtx"⟩, ⟨"/in/b.evtx"⟩] sampleFS).2.1).entriesUnder "/out/u1"
          = (([⟨"/in/a.evtx"⟩, ⟨"/in/b.evtx"⟩] : List InputFile).map
              (fun f => "/out/u1" ++ "/" ++ basename f.path)).reverse
      ∧ (((stageFiles "/out/u1" [⟨"/in/a.evtx"⟩, ⟨"/in/b.evtx"⟩] sampleFS).2.1).entriesUnder "/out/u1").length
          = ([⟨"/in/a.evtx"⟩, ⟨"/in/b.evtx"⟩] : List InputFile).length
      ∧ ∀ f ∈ ([⟨"/in/a.evtx"⟩, ⟨"/in/b.evtx"⟩] : List InputFile),
          ((stageFiles "/out/u1" [⟨"/in/a.evtx"⟩, ⟨"/in/b.evtx"⟩] sampleFS).2.1).inodeOf
              ("/out/u1" ++ "/" ++ basename f.path)
            = sampleFS.inodeOf f.path) :=
  ⟨by decide, by decide, by decide, by decide, by decide, by decide,
   c3_staging_completeness "/out/u1" [⟨"/in/a.evtx"⟩, ⟨"/in/b.evtx"⟩] sampleFS
     (by decide) (by decide) (by decide) (by decide) (by decide) (by decide)⟩

/-- C5: every successful invocation returns a `TaskResult` whose output file
list is exactly the single descriptor of the pre-allocated output file,
whose workflow identifier is the caller-supplied one unchanged, and whose
command string is the executed command joined with single spaces. -/
theorem c5_success_result_shape (env : Env) (fs0 : FS)
    (pr : Option (List InputFile)) (inf : List InputFile) (op : String)
    (wf : Option String) (tc : List (String × String)) (r : TaskResult)
    (h : (json_timeline env fs0 pr inf op wf tc).result = .ok r) :
    r.output_files = [(outputFileOf op).to_dict]
    ∧ r.workflow_id = wf
    ∧ r.command = spaceJoin (build_command (outputFileOf op).path (tempDirOf env op)) := by
  cases hm : fs0.mkdir (tempDirOf env op) with
  | none =>
    rw [json_timeline_mkdir_none env fs0 pr inf op wf tc hm] at h
    exact Except.noConfusion h
  | some fs1 =>
    cases hs : (stageFiles (tempDirOf env op) (get_input_files pr inf) fs1).1 with
    | false =>
      rw [json_timeline_stage_fail env fs0 fs1 pr inf op wf tc hm hs] at h
      exact Except.noConfusion h
    | true =>
      rw [json_timeline_stage_ok env fs0 fs1 pr inf op wf tc hm hs] at h
      cases hsp : env.spawnOk with
      | false =>
        rw [runAfterStaging_spawn_fail _ _ _ _ _ _ hsp] at h
        exact Except.noConfusion h
      | true =>
        rw [runAfterStaging_spawn_ok _ _ _ _ _ _ hsp] at h
        injection h with h
        subst h
        exact ⟨rfl, rfl, rfl⟩

/-- Witness for C5 at a concrete successful run. -/
theorem c5_success_result_shape_witness :
    (json_timeline envRun sampleFS none [⟨"/in/a.evtx"⟩] "/out"
      (some "wf") []).result
      = .ok (task_result [(outputFileOf "/out").to_dict] (some "wf")
          (spaceJoin (build_command (outputFileOf "/out").path
            (tempDirOf envRun "/out"))))
    ∧ ((task_result [(outputFileOf "/out").to_dict] (some "wf")
          (spaceJoin (build_command (outputFileOf "/out").path
            (tempDirOf envRun "/out")))).output_files
          = [(outputFileOf "/out").to_dict]
      ∧ (task_result [(outputFileOf "/out").to_dict] (some "wf")
          (spaceJoin (build_command (outputFileOf "/out").path
            (tempDirOf envRun "/out")))).workflow_id = some "wf"
      ∧ (task_result [(outputFileOf "/out").to_dict] (some "wf")
          (spaceJoin (build_command (outputFileOf "/out").path
            (tempDirOf envRun "/out")))).command
          = spaceJoin (build_command (outputFileOf "/out").path
              (tempDirOf envRun "/out"))) :=
  ⟨rfl, c5_success_result_shape envRun sampleFS none [⟨"/in/a.evtx"⟩] "/out"
    (some "wf") [] _ rfl⟩

/-- C7: in a run whose subprocess launch succeeds, the polling loop emits
the named event `task-progress` with no payload once per 2-second interval
while the process is alive (one event followed by one 2-second sleep per
liveness poll), and the actions after the loop (only the staging-directory
removal) contain no progress event. -/
theorem c7_progress_heartbeat (env : Env) (fs0 fs1 : FS)
    (pr : Option (List InputFile)) (inf : List InputFile) (op : String)
    (wf : Option String) (tc : List (String × String))
    (hm : fs0.mkdir (tempDirOf env op) = some fs1)
    (hstage : (stageFiles (tempDirOf env op) (get_input_files pr inf) fs1).1 = true)
    (hspawn : env.spawnOk = true) :
    (json_timeline env fs0 pr inf op wf tc).trace
      = Action.mkdir (tempDirOf env op)
        :: ((stageFiles (tempDirOf env op) (get_input_files pr inf) fs1).2.2
            ++ Action.spawn (build_command (outputFileOf op).path (tempDirOf env op))
            :: ((List.replicate env.pollsWhileAlive
                  [Action.sendEvent "task-progress" none, Action.sleep 2]).flatten
                ++ [Action.rmtree (tempDirOf env op)]))
    ∧ ∀ a ∈ [Action.rmtree (tempDirOf env op)], ∀ nm pl,
        a ≠ Action.sendEvent nm pl := by
  have hex := pathExists_tempDir_after_process env op fs0 fs1 pr inf hm
  rw [json_timeline_stage_ok env fs0 fs1 pr inf op wf tc hm hstage,
      runAfterStaging_spawn_ok _ _ _ _ _ _ hspawn]
  constructor
  · simp [hex, pollLoop_eq_replicate]
  · rintro a ha nm pl
    simp only [List.mem_singleton] at ha
    subst ha
    intro hcontra
    exact Action.noConfusion hcontra

/-- Witness for C7 at a concrete run with two liveness polls. -/
theorem c7_progress_heartbeat_witness :
    sampleFS.mkdir (tempDirOf envRun "/out")
      = some ⟨["/out/u1", "/out"], sampleFS.files⟩
    ∧ (stageFiles (tempDirOf envRun "/out") (get_input_files none [⟨"/in/a.evtx"⟩])
        ⟨["/out/u1", "/out"], sampleFS.files⟩).1 = true
    ∧ envRun.spawnOk = true
    ∧ ((json_timeline envRun sampleFS none [⟨"/in/a.evtx"⟩] "/out"
        (some "wf") []).trace
      = Action.mkdir (tempDirOf envRun "/out")
        :: ((stageFiles (tempDirOf envRun "/out") (get_input_files none [⟨"/in/a.evtx"⟩])
              ⟨["/out/u1", "/out"], sampleFS.files⟩).2.2
            ++ Action.spawn (build_command (outputFileOf "/out").path
                (tempDirOf envRun "/out"))
            :: ((List.replicate envRun.pollsWhileAlive
                  [Action.sendEvent "task-progress" none, Action.sleep 2]).flatten
                ++ [Action.rmtree (tempDirOf envRun "/out")]))
      ∧ ∀ a ∈ [Action.rmtree (tempDirOf envRun "/out")], ∀ nm pl,
          a ≠ Action.sendEvent nm pl) :=
  ⟨by decide, by decide, rfl,
   c7_progress_heartbeat envRun sampleFS ⟨["/out/u1", "/out"], sampleFS.files⟩
     none [⟨"/in/a.evtx"⟩] "/out" (some "wf") [] (by decide) (by decide) rfl⟩

/-- C8: if creating the staging directory fails, or staging fails because a
hard link cannot be established (for instance when two inputs share a base
filename), the invocation fails with the staging error and the external
process is never spawned: no spawn action occurs in the trace, and no retry
is modelled. -/
theorem c8_staging_error_before_spawn (env : Env) (fs0 : FS)
    (pr : Option (List InputFile)) (inf : List InputFile) (op : String)
    (wf : Option String) (tc : List (String × String))
    (h : fs0.mkdir (tempDirOf env op) = none
      ∨ ∃ fs1, fs0.mkdir (tempDirOf env op) = some fs1
          ∧ (stageFiles (tempDirOf env op) (get_input_files pr inf) fs1).1 = false) :
    (json_timeline env fs0 pr inf op wf tc).result = .error .stagingError
    ∧ ∀ c, Action.spawn c ∉ (json_timeline env fs0 pr inf op wf tc).trace := by
  rcases h with hm | ⟨fs1, hm, hs⟩
  · rw [json_timeline_mkdir_none env fs0 pr inf op wf tc hm]
    exact ⟨rfl, fun c hc => absurd hc (List.not_mem_nil _)⟩
  · rw [json_timeline_stage_fail env fs0 fs1 pr inf op wf tc hm hs]
    refine ⟨rfl, fun c hc => ?_⟩
    rcases List.mem_cons.mp hc with heq | hmem
    · exact Action.noConfusion heq
    · obtain ⟨s, d, heq⟩ := stageFiles_trace_links _ _ _ _ hmem
      exact Action.noConfusion heq

/-- Witness for C8: two inputs share the base filename `a.evtx`, so the
second hard link fails and the run stops with the staging error before any
spawn. -/
theorem c8_staging_error_before_spawn_witness :
    (sampleFS.mkdir (tempDirOf envRun "/out") = none
      ∨ ∃ fs1, sampleFS.mkdir (tempDirOf envRun "/out") = some fs1
          ∧ (stageFiles (tempDirOf envRun "/out")
              (get_input_files none [⟨"/in/a.evtx"⟩, ⟨"/other/a.evtx"⟩]) fs1).1 = false)
    ∧ ((json_timeline envRun sampleFS none [⟨"/in/a.evtx"⟩, ⟨"/other/a.evtx"⟩]
        "/out" (some "wf") []).result = .error .stagingError
      ∧ ∀ c, Action.spawn c
          ∉ (json_timeline envRun sampleFS none [⟨"/in/a.evtx"⟩, ⟨"/other/a.evtx"⟩]
              "/out" (some "wf") []).trace) :=
  ⟨Or.inr ⟨⟨["/out/u1", "/out"], sampleFS.files⟩, by decide, by decide⟩,
   c8_staging_error_before_spawn envRun sampleFS none
     [⟨"/in/a.evtx"⟩, ⟨"/other/a.evtx"⟩] "/out" (some "wf") []
     (Or.inr ⟨⟨["/out/u1", "/out"], sampleFS.files⟩, by decide, by decide⟩)⟩

/-- C9: an empty input file list is accepted without validation or error:
staging performs no links (the staging directory, created by `os.mkdir`,
stays empty), the external tool is still spawned over it, and the run
returns a success result. -/
theorem c9_empty_inputs_accepted (env : Env) (fs0 fs1 : FS) (op : String)
    (wf : Option String) (tc : List (String × String))
    (hspawn : env.spawnOk = true)
    (hm : fs0.mkdir (tempDirOf env op) = some fs1) :
    isOkResult (json_timeline env fs0 none [] op wf tc).result = true
    ∧ Action.spawn (build_command (outputFileOf op).path (tempDirOf env op))
        ∈ (json_timeline env fs0 none [] op wf tc).trace
    ∧ stageFiles (tempDirOf env op) (get_input_files none []) fs1
        = (true, fs1, []) := by
  have hstage : (stageFiles (tempDirOf env op) (get_input_files none []) fs1).1 = true := rfl
  rw [json_timeline_stage_ok env fs0 fs1 none [] op wf tc hm hstage,
      runAfterStaging_spawn_ok _ _ _ _ _ _ hspawn]
  refine ⟨rfl, ?_, rfl⟩
  simp

/-- Witness for C9 at a concrete input. -/
theorem c9_empty_inputs_accepted_witness :
    envRun.spawnOk = true
    ∧ sampleFS.mkdir (tempDirOf envRun "/out")
        = some ⟨["/out/u1", "/out"], sampleFS.files⟩
    ∧ (isOkResult (json_timeline envRun sampleFS none [] "/out"
          (some "wf") []).result = true
      ∧ Action.spawn (build_command (outputFileOf "/out").path (tempDirOf envRun "/out"))
          ∈ (json_timeline envRun sampleFS none [] "/out" (some "wf") []).trace
      ∧ stageFiles (tempDirOf envRun "/out") (get_input_files none [])
          ⟨["/out/u1", "/out"], sampleFS.files⟩
          = (true, ⟨["/out/u1", "/out"], sampleFS.files⟩, [])) :=
  ⟨rfl, by decide,
   c9_empty_inputs_accepted envRun sampleFS ⟨["/out/u1", "/out"], sampleFS.files⟩
     "/out" (some "wf") [] rfl (by decide)⟩

end Hayabusa
